import Mathlib

/-!
Verification development for the `simon` system-metrics exporter.

The embedding models the aggregation core of the repository:
* `Family` — a prometheus metric vector (`GaugeVec`/`CounterVec`): a finite
  association list from label-value tuples to a numeric value, with the
  prometheus semantics that reading an absent child yields `0` and `reset`
  removes every child.
* `Metrics` — the struct of all registered metric families (`src/metrics.rs`).
* `Metrics.update_cpu_usage`, `Metrics.update_process_metrics`,
  `Metrics.update_system_metrics`, `Metrics.update_network_metrics`,
  `Metrics.reset_process_metrics` — translated from `src/metrics.rs`.
* `NetworkData` — the sysinfo per-interface counter pair (cumulative total and
  the total at the previous refresh); `received` etc. report the delta since
  the last refresh, and `refresh` advances the pair.
* `collectionLoop`, `start_background_metrics_collection`,
  `stop_background_metrics_collection` — translated from `src/state.rs`.
* Effect traces for `try_get_metrics` and `main` from `src/main.rs`.

Numeric values are modelled as `ℚ` (the `f64` gauge/counter cells; all values
written by the program are `u64`/`f32` casts, so the arithmetic the claims
mention is exact).
-/

namespace Simon

abbrev Labels := List String

abbrev Value := ℚ

/-- A prometheus metric vector: children keyed by label values.  Reading an
absent child yields `0` (prometheus creates children on demand with value 0);
`reset` removes all children. -/
structure Family where
  entries : List (Labels × Value)
deriving DecidableEq

def getEntries (k : Labels) : List (Labels × Value) → Value
  | [] => 0
  | (k', v) :: rest => if k = k' then v else getEntries k rest

def setEntries (k : Labels) (v : Value) : List (Labels × Value) → List (Labels × Value)
  | [] => [(k, v)]
  | (k', v') :: rest => if k = k' then (k, v) :: rest else (k', v') :: setEntries k v rest

def hasKeyEntries (k : Labels) : List (Labels × Value) → Bool
  | [] => false
  | (k', _) :: rest => if k = k' then true else hasKeyEntries k rest

/-- Value of the child with labels `k` (0 when absent). -/
def Family.get (f : Family) (k : Labels) : Value :=
  getEntries k f.entries

/-- `with_label_values(k).set(v)`. -/
def Family.set (f : Family) (k : Labels) (v : Value) : Family :=
  ⟨setEntries k v f.entries⟩

/-- `with_label_values(k).inc_by(d)`. -/
def Family.inc (f : Family) (k : Labels) (d : Value) : Family :=
  f.set k (f.get k + d)

/-- Whether a child with labels `k` exists. -/
def Family.hasKey (f : Family) (k : Labels) : Bool :=
  hasKeyEntries k f.entries

/-- `reset()`: remove all children. -/
def Family.reset : Family := ⟨[]⟩

/-- Per-core cumulative CPU times as read from the OS (`sysinfo::Cpu`):
`user()`, `system()`, `nice()`, `idle()` seconds. -/
structure CpuStats where
  user : Value
  system : Value
  nice : Value
  idle : Value
deriving DecidableEq

/-- Per-process stats from one refresh (`sysinfo::Process`).  `name` is `none`
when the OS name fails to decode to text (`process.name().to_str()` returning
`None`).  `diskReadBytes`/`diskWrittenBytes` are `disk_usage().read_bytes` /
`written_bytes`, the deltas since the previous refresh. -/
structure ProcStats where
  name : Option String
  startTime : Nat
  runTime : Nat
  cpuUsage : Value
  memory : Nat
  virtualMemory : Nat
  diskReadBytes : Nat
  diskWrittenBytes : Nat
deriving DecidableEq

/-- One interface's state inside `sysinfo::Networks`: for each counter, the
current cumulative OS total and the total as of the previous refresh.
`received()` etc. report the difference, i.e. the delta since the last
refresh. -/
structure NetworkData where
  receivedTotal : Nat
  receivedPrev : Nat
  transmittedTotal : Nat
  transmittedPrev : Nat
  packetsReceivedTotal : Nat
  packetsReceivedPrev : Nat
  packetsTransmittedTotal : Nat
  packetsTransmittedPrev : Nat
  errorsOnReceivedTotal : Nat
  errorsOnReceivedPrev : Nat
  errorsOnTransmittedTotal : Nat
  errorsOnTransmittedPrev : Nat
deriving DecidableEq

def NetworkData.received (n : NetworkData) : Nat := n.receivedTotal - n.receivedPrev

def NetworkData.transmitted (n : NetworkData) : Nat := n.transmittedTotal - n.transmittedPrev

def NetworkData.packets_received (n : NetworkData) : Nat :=
  n.packetsReceivedTotal - n.packetsReceivedPrev

def NetworkData.packets_transmitted (n : NetworkData) : Nat :=
  n.packetsTransmittedTotal - n.packetsTransmittedPrev

def NetworkData.errors_on_received (n : NetworkData) : Nat :=
  n.errorsOnReceivedTotal - n.errorsOnReceivedPrev

def NetworkData.errors_on_transmitted (n : NetworkData) : Nat :=
  n.errorsOnTransmittedTotal - n.errorsOnTransmittedPrev

/-- Cumulative counters the OS reports for one interface at one instant. -/
structure NetTotals where
  received : Nat
  transmitted : Nat
  packetsReceived : Nat
  packetsTransmitted : Nat
  errorsOnReceived : Nat
  errorsOnTransmitted : Nat
deriving DecidableEq

/-- One `Networks::refresh` step for an interface: the previous totals become
the old current totals, the current totals come from the OS. -/
def NetworkData.refresh (n : NetworkData) (t : NetTotals) : NetworkData :=
  { receivedTotal := t.received
    receivedPrev := n.receivedTotal
    transmittedTotal := t.transmitted
    transmittedPrev := n.transmittedTotal
    packetsReceivedTotal := t.packetsReceived
    packetsReceivedPrev := n.packetsReceivedTotal
    packetsTransmittedTotal := t.packetsTransmitted
    packetsTransmittedPrev := n.packetsTransmittedTotal
    errorsOnReceivedTotal := t.errorsOnReceived
    errorsOnReceivedPrev := n.errorsOnReceivedTotal
    errorsOnTransmittedTotal := t.errorsOnTransmitted
    errorsOnTransmittedPrev := n.errorsOnTransmittedTotal }

/-- The refreshed `sysinfo::System` state one cycle reads. -/
structure SystemSnapshot where
  cpus : List CpuStats
  totalMemory : Nat
  freeMemory : Nat
  availableMemory : Nat
  usedMemory : Nat
  totalSwap : Nat
  freeSwap : Nat
  usedSwap : Nat
  processes : List ProcStats
deriving DecidableEq

/-- The `Metrics` struct of `src/metrics.rs`: every registered family. -/
structure Metrics where
  cpu_seconds_total : Family
  memory_total : Value
  memory_free : Value
  memory_available : Value
  memory_used : Value
  swap_total : Value
  swap_free : Value
  swap_used : Value
  process_cpu_usage : Family
  process_start_time : Family
  process_runtime : Family
  process_memory : Family
  process_virtual_memory : Family
  process_disk_read_total : Family
  process_disk_write_total : Family
  network_received_total : Family
  network_transmitted_total : Family
  network_packets_received_total : Family
  network_packets_transmitted_total : Family
  network_errors_on_received_total : Family
  network_errors_on_transmitted_total : Family
deriving DecidableEq

/-- `Metrics::new`: every vector starts with no children, every gauge at 0. -/
def Metrics.new : Metrics :=
  { cpu_seconds_total := Family.reset
    memory_total := 0
    memory_free := 0
    memory_available := 0
    memory_used := 0
    swap_total := 0
    swap_free := 0
    swap_used := 0
    process_cpu_usage := Family.reset
    process_start_time := Family.reset
    process_runtime := Family.reset
    process_memory := Family.reset
    process_virtual_memory := Family.reset
    process_disk_read_total := Family.reset
    process_disk_write_total := Family.reset
    network_received_total := Family.reset
    network_transmitted_total := Family.reset
    network_packets_received_total := Family.reset
    network_packets_transmitted_total := Family.reset
    network_errors_on_received_total := Family.reset
    network_errors_on_transmitted_total := Family.reset }

/-- `Metrics::update_cpu_usage` (`src/metrics.rs:263`): increment the four
mode cells of one core by that core's cumulative times. -/
def Metrics.update_cpu_usage (m : Metrics) (label : String) (cpu : CpuStats) : Metrics :=
  let f1 := m.cpu_seconds_total.inc [label, "user"] cpu.user
  let f2 := f1.inc [label, "system"] cpu.system
  let f3 := f2.inc [label, "nice"] cpu.nice
  let f4 := f3.inc [label, "idle"] cpu.idle
  { m with cpu_seconds_total := f4 }

/-- `Metrics::update_memory_metrics` (`src/metrics.rs:278`). -/
def Metrics.update_memory_metrics (m : Metrics) (total free available used : Nat) : Metrics :=
  { m with
    memory_total := (total : Value)
    memory_free := (free : Value)
    memory_available := (available : Value)
    memory_used := (used : Value) }

/-- `Metrics::update_swap_metrics` (`src/metrics.rs:285`). -/
def Metrics.update_swap_metrics (m : Metrics) (total free used : Nat) : Metrics :=
  { m with
    swap_total := (total : Value)
    swap_free := (free : Value)
    swap_used := (used : Value) }

/-- `Metrics::reset_process_metrics` (`src/metrics.rs:291`): remove all
children of the five process gauge families. -/
def Metrics.reset_process_metrics (m : Metrics) : Metrics :=
  { m with
    process_cpu_usage := Family.reset
    process_memory := Family.reset
    process_virtual_memory := Family.reset
    process_start_time := Family.reset
    process_runtime := Family.reset }

/-- `Metrics::update_process_metrics` (`src/metrics.rs:300`): read the current
cell values, then sum CPU/memory/virtual memory, add disk deltas to the disk
counters, take the min start time treating a stored `0` as unset, and the max
run time. -/
def Metrics.update_process_metrics (m : Metrics) (name : String) (p : ProcStats) : Metrics :=
  let current_cpu := m.process_cpu_usage.get [name]
  let current_memory := m.process_memory.get [name]
  let current_virtual_memory := m.process_virtual_memory.get [name]
  let current_start_time := m.process_start_time.get [name]
  let current_run_time := m.process_runtime.get [name]
  let new_start_time :=
    if current_start_time = 0 then (p.startTime : Value)
    else min current_start_time (p.startTime : Value)
  let new_run_time := max current_run_time (p.runTime : Value)
  { m with
    process_cpu_usage := m.process_cpu_usage.set [name] (current_cpu + p.cpuUsage)
    process_memory := m.process_memory.set [name] (current_memory + (p.memory : Value))
    process_virtual_memory :=
      m.process_virtual_memory.set [name] (current_virtual_memory + (p.virtualMemory : Value))
    process_disk_read_total := m.process_disk_read_total.inc [name] (p.diskReadBytes : Value)
    process_disk_write_total :=
      m.process_disk_write_total.inc [name] (p.diskWrittenBytes : Value)
    process_start_time := m.process_start_time.set [name] new_start_time
    process_runtime := m.process_runtime.set [name] new_run_time }

/-- Body of the per-core loop of `Metrics::update_system_metrics`
(`src/metrics.rs:353-355`): `self.update_cpu_usage(&i.to_string(), cpu)`. -/
def cpuStep (acc : Metrics) (ic : Nat × CpuStats) : Metrics :=
  acc.update_cpu_usage (toString ic.1) ic.2

/-- Body of the per-process loop of `Metrics::update_system_metrics`
(`src/metrics.rs:370-374`): a process whose name fails to decode is skipped. -/
def procStep (acc : Metrics) (p : ProcStats) : Metrics :=
  match p.name with
  | some n => acc.update_process_metrics n p
  | none => acc

/-- `Metrics::update_system_metrics` (`src/metrics.rs:348`): reset the
CPU-seconds family and rebuild it per core, set memory and swap gauges, reset
the process gauge families, then fold every process (skipping processes whose
name fails to decode) into the per-name aggregates. -/
def Metrics.update_system_metrics (m : Metrics) (sys : SystemSnapshot) : Metrics :=
  let m1 := { m with cpu_seconds_total := Family.reset }
  let m2 := sys.cpus.enum.foldl cpuStep m1
  let m3 := m2.update_memory_metrics sys.totalMemory sys.freeMemory
    sys.availableMemory sys.usedMemory
  let m4 := m3.update_swap_metrics sys.totalSwap sys.freeSwap sys.usedSwap
  let m5 := m4.reset_process_metrics
  sys.processes.foldl procStep m5

/-- `Metrics::update_network_metrics` (`src/metrics.rs:380`): increment each
per-interface counter by the delta the sampler reports since its last
refresh. -/
def Metrics.update_network_metrics
    (m : Metrics) (interface_name : String) (network : NetworkData) : Metrics :=
  { m with
    network_received_total :=
      m.network_received_total.inc [interface_name] (network.received : Value)
    network_transmitted_total :=
      m.network_transmitted_total.inc [interface_name] (network.transmitted : Value)
    network_packets_received_total :=
      m.network_packets_received_total.inc [interface_name] (network.packets_received : Value)
    network_packets_transmitted_total :=
      m.network_packets_transmitted_total.inc [interface_name]
        (network.packets_transmitted : Value)
    network_errors_on_received_total :=
      m.network_errors_on_received_total.inc [interface_name]
        (network.errors_on_received : Value)
    network_errors_on_transmitted_total :=
      m.network_errors_on_transmitted_total.inc [interface_name]
        (network.errors_on_transmitted : Value) }

/-- What one iteration of the background loop reads from the OS: the refreshed
system state and the refreshed network interface list (`src/state.rs:79-94`). -/
structure RawSample where
  system : SystemSnapshot
  networks : List (String × NetworkData)
deriving DecidableEq

/-- Body of the per-interface loop of the background task
(`src/state.rs:89-91`). -/
def netStep (acc : Metrics) (nd : String × NetworkData) : Metrics :=
  acc.update_network_metrics nd.1 nd.2

/-- One complete collection cycle (`src/state.rs:79-94`): update system
metrics from the refreshed system state, then fold every interface into the
network counters. -/
def runCycle (m : Metrics) (s : RawSample) : Metrics :=
  s.networks.foldl netStep (m.update_system_metrics s.system)

/-- The store after a sequence of complete collection cycles. -/
def applyCycles (samples : List RawSample) (m : Metrics) : Metrics :=
  samples.foldl runCycle m

/-- The background collection loop of `src/state.rs:58-100`, fuelled.  At the
top of each iteration the shutdown signal is checked (`try_recv`); only when
it is absent does the loop sample and aggregate, then sleep.  `sig i` is
whether the shutdown signal has been sent by the time iteration `i` performs
its check; `samples i` is what the OS refresh of iteration `i` observes. -/
def collectionLoop :
    Nat → (Nat → Bool) → Nat → (Nat → RawSample) → Metrics → Option Metrics
  | 0, _, _, _, _ => none
  | fuel + 1, sig, i, samples, m =>
    if sig i then some m
    else collectionLoop fuel sig (i + 1) samples (runCycle m (samples i))

/-- Scheduler control state of `AppState` (`src/state.rs`): whether
`shutdown_tx` and `_background_task` hold a value. -/
structure SchedCtl where
  shutdown_tx : Bool
  background_task : Bool
deriving DecidableEq

inductive SchedError where
  | alreadyRunning
deriving DecidableEq

/-- `AppState::start_background_metrics_collection` (`src/state.rs:38`):
fails when a background task is already present, leaving the state untouched;
otherwise records the shutdown sender and the spawned task. -/
def start_background_metrics_collection (s : SchedCtl) : SchedCtl × Option SchedError :=
  if s.background_task then (s, some SchedError.alreadyRunning)
  else ({ shutdown_tx := true, background_task := true }, none)

/-- `AppState::stop_background_metrics_collection` (`src/state.rs:112`):
send the shutdown signal if a sender exists, await the task if present, clear
both; it has no failure path. -/
def stop_background_metrics_collection (s : SchedCtl) : SchedCtl :=
  { shutdown_tx := false, background_task := false }

/-- Observable operations performed by the request path and by process
startup (`src/main.rs`). -/
inductive Effect where
  | lockSystem
  | lockNetworks
  | refreshSystem
  | refreshNetworks
  | writeMetrics
  | gatherSnapshot
  | encodeSnapshot
  | constructAppState
  | startScheduler
  | stopScheduler
  | bindListener
  | serveRequests
deriving DecidableEq

/-- The sequence of operations `try_get_metrics` performs per scrape request
(`src/main.rs:73-196`): it locks the system handle, locks the network list,
refreshes both, writes every metric from the fresh OS read, then gathers and
encodes the registry. -/
def try_get_metrics_trace : List Effect :=
  [Effect.lockSystem, Effect.lockNetworks, Effect.refreshSystem, Effect.refreshNetworks,
   Effect.writeMetrics, Effect.gatherSnapshot, Effect.encodeSnapshot]

/-- The sequence of operations `main` performs (`src/main.rs:198-217`): it
constructs the `AppState`, binds the listener and serves requests until the
server future completes; it never starts or stops the background collection
task. -/
def main_trace : List Effect :=
  [Effect.constructAppState, Effect.bindListener, Effect.serveRequests]

/-! Helper definitions used to state and prove the claims. -/

/-- Whether a process carries the (decoded) name `n`. -/
def sameName (n : String) (p : ProcStats) : Bool :=
  decide (p.name = some n)

/-- The process names observed in one sample (names that decode). -/
def observedNames (sys : SystemSnapshot) : List String :=
  sys.processes.filterMap (fun p => p.name)

/-- The per-name start-time accumulation the code performs across same-named
processes: a stored `0` is treated as unset, otherwise the min is kept. -/
def stFold (c : Value) (ts : List Value) : Value :=
  ts.foldl (fun cur t => if cur = 0 then t else min cur t) c

/-- The per-name run-time accumulation the code performs: running max. -/
def rtFold (c : Value) (ts : List Value) : Value :=
  ts.foldl max c

/-- Contribution of core `j`'s update to the CPU-seconds cell with labels
`k`. -/
def cellContrib (j : Nat) (c : CpuStats) (k : Labels) : Value :=
  (if k = [toString j, "user"] then c.user else 0) +
  (if k = [toString j, "system"] then c.system else 0) +
  (if k = [toString j, "nice"] then c.nice else 0) +
  (if k = [toString j, "idle"] then c.idle else 0)

/-- Total contribution to the CPU-seconds cell `k` of a core list whose first
element has index `n`. -/
def cpuContribFrom : Nat → List CpuStats → Labels → Value
  | _, [], _ => 0
  | n, c :: rest, k => cellContrib n c k + cpuContribFrom (n + 1) rest k

/-- Numeric value of a decimal digit character. -/
def charVal (c : Char) : Nat := c.toNat - 48

/-- Left inverse of `Nat.repr`, used to show decimal core labels are
injective. -/
def decodeRepr (s : String) : Nat :=
  Nat.ofDigits 10 (s.data.reverse.map charVal)

/-! Concrete inputs used by counterexamples and witnesses. -/

/-- A process named `w` that reports start time `0`. -/
def procW0 : ProcStats :=
  { name := some "w", startTime := 0, runTime := 1, cpuUsage := 1
    memory := 1, virtualMemory := 1, diskReadBytes := 0, diskWrittenBytes := 0 }

/-- A process named `w` that reports start time `5`. -/
def procW5 : ProcStats :=
  { name := some "w", startTime := 5, runTime := 2, cpuUsage := 1
    memory := 1, virtualMemory := 1, diskReadBytes := 0, diskWrittenBytes := 0 }

/-- A sample whose process table holds the two `w` processes, the zero start
time first. -/
def cexSys : SystemSnapshot :=
  { cpus := [], totalMemory := 0, freeMemory := 0, availableMemory := 0, usedMemory := 0
    totalSwap := 0, freeSwap := 0, usedSwap := 0
    processes := [procW0, procW5] }

/-- First `worker` process of the spec scenario: CPU 10%, memory 100MB. -/
def worker1 : ProcStats :=
  { name := some "worker", startTime := 100, runTime := 30, cpuUsage := 10
    memory := 104857600, virtualMemory := 200, diskReadBytes := 7, diskWrittenBytes := 3 }

/-- Second `worker` process of the spec scenario: CPU 15%, memory 50MB. -/
def worker2 : ProcStats :=
  { name := some "worker", startTime := 90, runTime := 60, cpuUsage := 15
    memory := 52428800, virtualMemory := 100, diskReadBytes := 5, diskWrittenBytes := 4 }

/-- A sample observing the two `worker` processes. -/
def workerSys : SystemSnapshot :=
  { cpus := [{ user := 1, system := 2, nice := 0, idle := 3 }]
    totalMemory := 16, freeMemory := 8, availableMemory := 8, usedMemory := 8
    totalSwap := 4, freeSwap := 2, usedSwap := 2
    processes := [worker1, worker2] }

/-- `eth0` after the sampler's first refresh: cumulative received bytes
1000. -/
def eth0First : NetworkData :=
  { receivedTotal := 1000, receivedPrev := 0
    transmittedTotal := 10, transmittedPrev := 0
    packetsReceivedTotal := 4, packetsReceivedPrev := 0
    packetsTransmittedTotal := 2, packetsTransmittedPrev := 0
    errorsOnReceivedTotal := 0, errorsOnReceivedPrev := 0
    errorsOnTransmittedTotal := 0, errorsOnTransmittedPrev := 0 }

/-- OS totals at the sampler's second refresh: cumulative received bytes
1500. -/
def eth0SecondTotals : NetTotals :=
  { received := 1500, transmitted := 12, packetsReceived := 6
    packetsTransmitted := 3, errorsOnReceived := 0, errorsOnTransmitted := 0 }

/-- A small sample used by loop and monotonicity witnesses. -/
def sampleA : RawSample :=
  { system := workerSys, networks := [("eth0", eth0First)] }

/-- A second sample with larger cumulative CPU times and a fresh interface
delta. -/
def sampleB : RawSample :=
  { system := { workerSys with cpus := [{ user := 2, system := 2, nice := 1, idle := 5 }] }
    networks := [("eth0", eth0First.refresh eth0SecondTotals)] }

/-! Basic lemmas about metric families. -/

theorem getEntries_setEntries (k k' : Labels) (v : Value) (l : List (Labels × Value)) :
    getEntries k' (setEntries k v l) = if k' = k then v else getEntries k' l := by
  induction l with
  | nil => by_cases h : k' = k <;> simp [setEntries, getEntries, h]
  | cons hd tl ih =>
    obtain ⟨k0, v0⟩ := hd
    by_cases h1 : k = k0
    · subst h1
      by_cases h2 : k' = k <;> simp [setEntries, getEntries, h2]
    · by_cases h2 : k' = k0
      · have h3 : ¬ k' = k := fun hh => h1 (hh.symm.trans h2)
        have h4 : ¬ k0 = k := fun hh => h1 hh.symm
        simp [setEntries, getEntries, h1, h2, h3, h4]
      · simp [setEntries, getEntries, h1, h2, ih]

theorem Family.get_set (f : Family) (k k' : Labels) (v : Value) :
    (f.set k v).get k' = if k' = k then v else f.get k' :=
  getEntries_setEntries k k' v f.entries

theorem Family.get_inc (f : Family) (k k' : Labels) (d : Value) :
    (f.inc k d).get k' = f.get k' + (if k' = k then d else 0) := by
  by_cases h : k' = k <;> simp [Family.inc, Family.get_set, h]

theorem hasKeyEntries_setEntries (k k' : Labels) (v : Value) (l : List (Labels × Value)) :
    hasKeyEntries k' (setEntries k v l) = (k' = k || hasKeyEntries k' l) := by
  induction l with
  | nil => by_cases h : k' = k <;> simp [setEntries, hasKeyEntries, h]
  | cons hd tl ih =>
    obtain ⟨k0, v0⟩ := hd
    by_cases h1 : k = k0
    · subst h1
      by_cases h2 : k' = k <;> simp [setEntries, hasKeyEntries, h2]
    · by_cases h2 : k' = k0
      · have h3 : ¬ k' = k := fun hh => h1 (hh.symm.trans h2)
        have h4 : ¬ k0 = k := fun hh => h1 hh.symm
        simp [setEntries, hasKeyEntries, h1, h2, h3, h4]
      · simp [setEntries, hasKeyEntries, h1, h2, ih]

theorem Family.hasKey_set (f : Family) (k k' : Labels) (v : Value) :
    (f.set k v).hasKey k' = (k' = k || f.hasKey k') :=
  hasKeyEntries_setEntries k k' v f.entries

theorem Family.get_reset (k : Labels) : Family.reset.get k = 0 := rfl

theorem Family.hasKey_reset (k : Labels) : Family.reset.hasKey k = false := rfl

theorem Family.hasKey_set_iff (f : Family) (k k' : Labels) (v : Value) :
    ((f.set k v).hasKey k' = true) ↔ (k' = k ∨ f.hasKey k' = true) := by
  simp [Family.hasKey_set f k k' v]

/-! Frame lemmas: each loop of the aggregation only modifies its own metric
families. -/

theorem cpuFold_eq (l : List (Nat × CpuStats)) (m : Metrics) :
    l.foldl cpuStep m =
      { m with cpu_seconds_total := (l.foldl cpuStep m).cpu_seconds_total } := by
  induction l generalizing m with
  | nil => rfl
  | cons hd tl ih =>
    simp only [List.foldl_cons]
    rw [ih (cpuStep m hd)]
    rfl

theorem procFold_eq (l : List ProcStats) (m : Metrics) :
    l.foldl procStep m =
      { m with
        process_cpu_usage := (l.foldl procStep m).process_cpu_usage
        process_start_time := (l.foldl procStep m).process_start_time
        process_runtime := (l.foldl procStep m).process_runtime
        process_memory := (l.foldl procStep m).process_memory
        process_virtual_memory := (l.foldl procStep m).process_virtual_memory
        process_disk_read_total := (l.foldl procStep m).process_disk_read_total
        process_disk_write_total := (l.foldl procStep m).process_disk_write_total } := by
  induction l generalizing m with
  | nil => rfl
  | cons hd tl ih =>
    simp only [List.foldl_cons]
    rw [ih (procStep m hd)]
    cases hp : hd.name with
    | none => simp [procStep, hp]
    | some n => simp [procStep, hp, Metrics.update_process_metrics]

theorem netFold_eq (l : List (String × NetworkData)) (m : Metrics) :
    l.foldl netStep m =
      { m with
        network_received_total := (l.foldl netStep m).network_received_total
        network_transmitted_total := (l.foldl netStep m).network_transmitted_total
        network_packets_received_total := (l.foldl netStep m).network_packets_received_total
        network_packets_transmitted_total :=
          (l.foldl netStep m).network_packets_transmitted_total
        network_errors_on_received_total :=
          (l.foldl netStep m).network_errors_on_received_total
        network_errors_on_transmitted_total :=
          (l.foldl netStep m).network_errors_on_transmitted_total } := by
  induction l generalizing m with
  | nil => rfl
  | cons hd tl ih =>
    simp only [List.foldl_cons]
    rw [ih (netStep m hd)]
    rfl

/-! Characterization of the per-process aggregation fold. -/

theorem procFold_cpu_get (l : List ProcStats) (m : Metrics) (n : String) :
    (l.foldl procStep m).process_cpu_usage.get [n] =
      m.process_cpu_usage.get [n] +
        ((l.filter (sameName n)).map (fun p => p.cpuUsage)).sum := by
  induction l generalizing m with
  | nil => simp
  | cons p tl ih =>
    simp only [List.foldl_cons]
    rw [ih (procStep m p)]
    cases hp : p.name with
    | none => simp [procStep, hp, sameName, List.filter_cons]
    | some n' =>
      by_cases h : n' = n
      · subst h
        simp [procStep, hp, Metrics.update_process_metrics, Family.get_set, sameName,
          List.filter_cons]
        ring
      · simp [procStep, hp, Metrics.update_process_metrics, Family.get_set, sameName, h,
          List.filter_cons, Ne.symm h]

theorem procFold_memory_get (l : List ProcStats) (m : Metrics) (n : String) :
    (l.foldl procStep m).process_memory.get [n] =
      m.process_memory.get [n] +
        ((l.filter (sameName n)).map (fun p => ((p.memory : Value)))).sum := by
  induction l generalizing m with
  | nil => simp
  | cons p tl ih =>
    simp only [List.foldl_cons]
    rw [ih (procStep m p)]
    cases hp : p.name with
    | none => simp [procStep, hp, sameName, List.filter_cons]
    | some n' =>
      by_cases h : n' = n
      · subst h
        simp [procStep, hp, Metrics.update_process_metrics, Family.get_set, sameName,
          List.filter_cons]
        ring
      · simp [procStep, hp, Metrics.update_process_metrics, Family.get_set, sameName, h,
          List.filter_cons, Ne.symm h]

theorem procFold_virtual_memory_get (l : List ProcStats) (m : Metrics) (n : String) :
    (l.foldl procStep m).process_virtual_memory.get [n] =
      m.process_virtual_memory.get [n] +
        ((l.filter (sameName n)).map (fun p => ((p.virtualMemory : Value)))).sum := by
  induction l generalizing m with
  | nil => simp
  | cons p tl ih =>
    simp only [List.foldl_cons]
    rw [ih (procStep m p)]
    cases hp : p.name with
    | none => simp [procStep, hp, sameName, List.filter_cons]
    | some n' =>
      by_cases h : n' = n
      · subst h
        simp [procStep, hp, Metrics.update_process_metrics, Family.get_set, sameName,
          List.filter_cons]
        ring
      · simp [procStep, hp, Metrics.update_process_metrics, Family.get_set, sameName, h,
          List.filter_cons, Ne.symm h]

theorem procFold_disk_read_get (l : List ProcStats) (m : Metrics) (n : String) :
    (l.foldl procStep m).process_disk_read_total.get [n] =
      m.process_disk_read_total.get [n] +
        ((l.filter (sameName n)).map (fun p => ((p.diskReadBytes : Value)))).sum := by
  induction l generalizing m with
  | nil => simp
  | cons p tl ih =>
    simp only [List.foldl_cons]
    rw [ih (procStep m p)]
    cases hp : p.name with
    | none => simp [procStep, hp, sameName, List.filter_cons]
    | some n' =>
      by_cases h : n' = n
      · subst h
        simp [procStep, hp, Metrics.update_process_metrics, Family.get_inc, sameName,
          List.filter_cons]
        ring
      · simp [procStep, hp, Metrics.update_process_metrics, Family.get_inc, sameName, h,
          List.filter_cons, Ne.symm h]

theorem procFold_disk_write_get (l : List ProcStats) (m : Metrics) (n : String) :
    (l.foldl procStep m).process_disk_write_total.get [n] =
      m.process_disk_write_total.get [n] +
        ((l.filter (sameName n)).map (fun p => ((p.diskWrittenBytes : Value)))).sum := by
  induction l generalizing m with
  | nil => simp
  | cons p tl ih =>
    simp only [List.foldl_cons]
    rw [ih (procStep m p)]
    cases hp : p.name with
    | none => simp [procStep, hp, sameName, List.filter_cons]
    | some n' =>
      by_cases h : n' = n
      · subst h
        simp [procStep, hp, Metrics.update_process_metrics, Family.get_inc, sameName,
          List.filter_cons]
        ring
      · simp [procStep, hp, Metrics.update_process_metrics, Family.get_inc, sameName, h,
          List.filter_cons, Ne.symm h]

theorem procFold_start_get (l : List ProcStats) (m : Metrics) (n : String) :
    (l.foldl procStep m).process_start_time.get [n] =
      stFold (m.process_start_time.get [n])
        ((l.filter (sameName n)).map (fun p => ((p.startTime : Value)))) := by
  induction l generalizing m with
  | nil => simp [stFold]
  | cons p tl ih =>
    simp only [List.foldl_cons]
    rw [ih (procStep m p)]
    cases hp : p.name with
    | none => simp [procStep, hp, sameName, List.filter_cons]
    | some n' =>
      by_cases h : n' = n
      · subst h
        simp [procStep, hp, Metrics.update_process_metrics, Family.get_set, sameName,
          List.filter_cons, stFold]
      · simp [procStep, hp, Metrics.update_process_metrics, Family.get_set, sameName, h,
          List.filter_cons, Ne.symm h]

theorem procFold_run_get (l : List ProcStats) (m : Metrics) (n : String) :
    (l.foldl procStep m).process_runtime.get [n] =
      rtFold (m.process_runtime.get [n])
        ((l.filter (sameName n)).map (fun p => ((p.runTime : Value)))) := by
  induction l generalizing m with
  | nil => simp [rtFold]
  | cons p tl ih =>
    simp only [List.foldl_cons]
    rw [ih (procStep m p)]
    cases hp : p.name with
    | none => simp [procStep, hp, sameName, List.filter_cons]
    | some n' =>
      by_cases h : n' = n
      · subst h
        simp [procStep, hp, Metrics.update_process_metrics, Family.get_set, sameName,
          List.filter_cons, rtFold]
      · simp [procStep, hp, Metrics.update_process_metrics, Family.get_set, sameName, h,
          List.filter_cons, Ne.symm h]

theorem procStep_hasKey (m : Metrics) (p : ProcStats) (n : String) :
    ((procStep m p).process_cpu_usage.hasKey [n] = true ↔
      (p.name = some n ∨ m.process_cpu_usage.hasKey [n] = true)) ∧
    ((procStep m p).process_memory.hasKey [n] = true ↔
      (p.name = some n ∨ m.process_memory.hasKey [n] = true)) ∧
    ((procStep m p).process_virtual_memory.hasKey [n] = true ↔
      (p.name = some n ∨ m.process_virtual_memory.hasKey [n] = true)) ∧
    ((procStep m p).process_start_time.hasKey [n] = true ↔
      (p.name = some n ∨ m.process_start_time.hasKey [n] = true)) ∧
    ((procStep m p).process_runtime.hasKey [n] = true ↔
      (p.name = some n ∨ m.process_runtime.hasKey [n] = true)) := by
  cases hp : p.name with
  | none => simp [procStep, hp]
  | some n' =>
    by_cases h : n = n'
    · subst h
      simp [procStep, hp, Metrics.update_process_metrics, Family.hasKey_set_iff]
    · have h' : ¬ n' = n := fun hh => h hh.symm
      simp [procStep, hp, Metrics.update_process_metrics, Family.hasKey_set_iff, h, h']

theorem procFold_hasKey (l : List ProcStats) (m : Metrics) (n : String) :
    ((l.foldl procStep m).process_cpu_usage.hasKey [n] = true ↔
      (n ∈ l.filterMap (fun p => p.name) ∨ m.process_cpu_usage.hasKey [n] = true)) ∧
    ((l.foldl procStep m).process_memory.hasKey [n] = true ↔
      (n ∈ l.filterMap (fun p => p.name) ∨ m.process_memory.hasKey [n] = true)) ∧
    ((l.foldl procStep m).process_virtual_memory.hasKey [n] = true ↔
      (n ∈ l.filterMap (fun p => p.name) ∨ m.process_virtual_memory.hasKey [n] = true)) ∧
    ((l.foldl procStep m).process_start_time.hasKey [n] = true ↔
      (n ∈ l.filterMap (fun p => p.name) ∨ m.process_start_time.hasKey [n] = true)) ∧
    ((l.foldl procStep m).process_runtime.hasKey [n] = true ↔
      (n ∈ l.filterMap (fun p => p.name) ∨ m.process_runtime.hasKey [n] = true)) := by
  induction l generalizing m with
  | nil => simp
  | cons p tl ih =>
    simp only [List.foldl_cons]
    obtain ⟨i1, i2, i3, i4, i5⟩ := ih (procStep m p)
    rw [i1, i2, i3, i4, i5]
    obtain ⟨s1, s2, s3, s4, s5⟩ := procStep_hasKey m p n
    rw [s1, s2, s3, s4, s5]
    cases hp : p.name with
    | none =>
      refine ⟨?_, ?_, ?_, ?_, ?_⟩ <;>
        · simp only [List.filterMap_cons, hp]
          simp
    | some n' =>
      refine ⟨?_, ?_, ?_, ?_, ?_⟩ <;>
        · simp only [List.filterMap_cons, hp, List.mem_cons, Option.some.injEq]
          constructor
          · rintro (hmem | h | hk)
            · exact Or.inl (Or.inr hmem)
            · exact Or.inl (Or.inl h.symm)
            · exact Or.inr hk
          · rintro ((h | hmem) | hk)
            · exact Or.inr (Or.inl h.symm)
            · exact Or.inl hmem
            · exact Or.inr (Or.inr hk)

/-- Normal form of a system-metrics pass: the per-process fold started from a
store whose CPU family was rebuilt, whose memory and swap gauges were set, and
whose process gauge families are empty. -/
theorem update_system_metrics_eq (m : Metrics) (sys : SystemSnapshot) :
    m.update_system_metrics sys =
      sys.processes.foldl procStep
        { m with
          cpu_seconds_total := (sys.cpus.enum.foldl cpuStep
            { m with cpu_seconds_total := Family.reset }).cpu_seconds_total
          memory_total := (sys.totalMemory : Value)
          memory_free := (sys.freeMemory : Value)
          memory_available := (sys.availableMemory : Value)
          memory_used := (sys.usedMemory : Value)
          swap_total := (sys.totalSwap : Value)
          swap_free := (sys.freeSwap : Value)
          swap_used := (sys.usedSwap : Value)
          process_cpu_usage := Family.reset
          process_memory := Family.reset
          process_virtual_memory := Family.reset
          process_start_time := Family.reset
          process_runtime := Family.reset } := by
  simp only [Metrics.update_system_metrics]
  rw [cpuFold_eq]
  rfl

theorem usm_cpu_get (m : Metrics) (sys : SystemSnapshot) (n : String) :
    (m.update_system_metrics sys).process_cpu_usage.get [n] =
      ((sys.processes.filter (sameName n)).map (fun p => p.cpuUsage)).sum := by
  rw [update_system_metrics_eq, procFold_cpu_get]
  simp [Family.get_reset]

theorem usm_memory_get (m : Metrics) (sys : SystemSnapshot) (n : String) :
    (m.update_system_metrics sys).process_memory.get [n] =
      ((sys.processes.filter (sameName n)).map (fun p => ((p.memory : Value)))).sum := by
  rw [update_system_metrics_eq, procFold_memory_get]
  simp [Family.get_reset]

theorem usm_virtual_memory_get (m : Metrics) (sys : SystemSnapshot) (n : String) :
    (m.update_system_metrics sys).process_virtual_memory.get [n] =
      ((sys.processes.filter (sameName n)).map (fun p => ((p.virtualMemory : Value)))).sum := by
  rw [update_system_metrics_eq, procFold_virtual_memory_get]
  simp [Family.get_reset]

theorem usm_start_get (m : Metrics) (sys : SystemSnapshot) (n : String) :
    (m.update_system_metrics sys).process_start_time.get [n] =
      stFold 0 ((sys.processes.filter (sameName n)).map (fun p => ((p.startTime : Value)))) := by
  rw [update_system_metrics_eq, procFold_start_get]
  simp only [Family.get_reset]

theorem usm_run_get (m : Metrics) (sys : SystemSnapshot) (n : String) :
    (m.update_system_metrics sys).process_runtime.get [n] =
      rtFold 0 ((sys.processes.filter (sameName n)).map (fun p => ((p.runTime : Value)))) := by
  rw [update_system_metrics_eq, procFold_run_get]
  simp only [Family.get_reset]

theorem usm_disk_read_get (m : Metrics) (sys : SystemSnapshot) (n : String) :
    (m.update_system_metrics sys).process_disk_read_total.get [n] =
      m.process_disk_read_total.get [n] +
        ((sys.processes.filter (sameName n)).map (fun p => ((p.diskReadBytes : Value)))).sum := by
  rw [update_system_metrics_eq, procFold_disk_read_get]

theorem usm_disk_write_get (m : Metrics) (sys : SystemSnapshot) (n : String) :
    (m.update_system_metrics sys).process_disk_write_total.get [n] =
      m.process_disk_write_total.get [n] +
        ((sys.processes.filter (sameName n)).map (fun p => ((p.diskWrittenBytes : Value)))).sum := by
  rw [update_system_metrics_eq, procFold_disk_write_get]

theorem usm_hasKey (m : Metrics) (sys : SystemSnapshot) (n : String) :
    ((m.update_system_metrics sys).process_cpu_usage.hasKey [n] = true ↔
        n ∈ observedNames sys) ∧
    ((m.update_system_metrics sys).process_memory.hasKey [n] = true ↔
        n ∈ observedNames sys) ∧
    ((m.update_system_metrics sys).process_virtual_memory.hasKey [n] = true ↔
        n ∈ observedNames sys) ∧
    ((m.update_system_metrics sys).process_start_time.hasKey [n] = true ↔
        n ∈ observedNames sys) ∧
    ((m.update_system_metrics sys).process_runtime.hasKey [n] = true ↔
        n ∈ observedNames sys) := by
  rw [update_system_metrics_eq]
  obtain ⟨i1, i2, i3, i4, i5⟩ := procFold_hasKey sys.processes
    { m with
      cpu_seconds_total := (sys.cpus.enum.foldl cpuStep
        { m with cpu_seconds_total := Family.reset }).cpu_seconds_total
      memory_total := (sys.totalMemory : Value)
      memory_free := (sys.freeMemory : Value)
      memory_available := (sys.availableMemory : Value)
      memory_used := (sys.usedMemory : Value)
      swap_total := (sys.totalSwap : Value)
      swap_free := (sys.freeSwap : Value)
      swap_used := (sys.usedSwap : Value)
      process_cpu_usage := Family.reset
      process_memory := Family.reset
      process_virtual_memory := Family.reset
      process_start_time := Family.reset
      process_runtime := Family.reset } n
  rw [i1, i2, i3, i4, i5]
  simp [observedNames, Family.hasKey_reset]

/-! Minimum/maximum facts about the start-time and run-time accumulations. -/

theorem stFold_pos (c : Value) (ts : List Value) (hc : 0 < c) (hts : ∀ t ∈ ts, 0 < t) :
    stFold c ts ∈ c :: ts ∧ stFold c ts ≤ c ∧ ∀ t ∈ ts, stFold c ts ≤ t := by
  induction ts generalizing c with
  | nil => simp [stFold]
  | cons t ts ih =>
    have hc' : ¬ (c = 0) := ne_of_gt hc
    have ht : 0 < t := hts t (by simp)
    have hmin : 0 < min c t := lt_min hc ht
    have hstep : stFold c (t :: ts) = stFold (min c t) ts := by
      simp [stFold, hc']
    have hrec := ih (min c t) hmin (fun x hx => hts x (by simp [hx]))
    refine ⟨?_, ?_, ?_⟩
    · rw [hstep]
      rcases List.mem_cons.mp hrec.1 with h | h
      · rcases min_choice c t with hm | hm
        · rw [h, hm]; simp
        · rw [h, hm]; simp
      · simp [List.mem_cons, h]
    · rw [hstep]
      exact le_trans hrec.2.1 (min_le_left c t)
    · intro x hx
      rw [hstep]
      rcases List.mem_cons.mp hx with h | h
      · subst h
        exact le_trans hrec.2.1 (min_le_right c x)
      · exact hrec.2.2 x h

theorem stFold_zero_min (ts : List Value) (hne : ts ≠ []) (hts : ∀ t ∈ ts, 0 < t) :
    stFold 0 ts ∈ ts ∧ ∀ t ∈ ts, stFold 0 ts ≤ t := by
  cases ts with
  | nil => exact absurd rfl hne
  | cons t ts =>
    have ht : 0 < t := hts t (by simp)
    have hstep : stFold 0 (t :: ts) = stFold t ts := by simp [stFold]
    have hrec := stFold_pos t ts ht (fun x hx => hts x (by simp [hx]))
    refine ⟨?_, ?_⟩
    · rw [hstep]
      exact hrec.1
    · intro x hx
      rw [hstep]
      rcases List.mem_cons.mp hx with h | h
      · subst h
        exact hrec.2.1
      · exact hrec.2.2 x h

theorem rtFold_mem_ub (c : Value) (ts : List Value) :
    rtFold c ts ∈ c :: ts ∧ c ≤ rtFold c ts ∧ ∀ t ∈ ts, t ≤ rtFold c ts := by
  induction ts generalizing c with
  | nil => simp [rtFold]
  | cons t ts ih =>
    have hstep : rtFold c (t :: ts) = rtFold (max c t) ts := by simp [rtFold]
    have hrec := ih (max c t)
    refine ⟨?_, ?_, ?_⟩
    · rw [hstep]
      rcases List.mem_cons.mp hrec.1 with h | h
      · rcases max_choice c t with hm | hm
        · rw [h, hm]; simp
        · rw [h, hm]; simp
      · simp [List.mem_cons, h]
    · rw [hstep]
      exact le_trans (le_max_left c t) hrec.2.1
    · intro x hx
      rw [hstep]
      rcases List.mem_cons.mp hx with h | h
      · subst h
        exact le_trans (le_max_right c x) hrec.2.1
      · exact hrec.2.2 x h

theorem rtFold_zero_max (ts : List Value) (hne : ts ≠ []) (hts : ∀ t ∈ ts, 0 ≤ t) :
    rtFold 0 ts ∈ ts ∧ ∀ t ∈ ts, t ≤ rtFold 0 ts := by
  cases ts with
  | nil => exact absurd rfl hne
  | cons t ts =>
    have ht : 0 ≤ t := hts t (by simp)
    have hstep : rtFold 0 (t :: ts) = rtFold t ts := by
      simp [rtFold, max_eq_right ht]
    have hrec := rtFold_mem_ub t ts
    refine ⟨?_, ?_⟩
    · rw [hstep]
      exact hrec.1
    · intro x hx
      rw [hstep]
      rcases List.mem_cons.mp hx with h | h
      · subst h
        exact hrec.2.1
      · exact hrec.2.2 x h

/-! Injectivity of the decimal core labels produced by `i.to_string()`. -/

theorem charVal_digitChar (d : Nat) (h : d < 10) : charVal (Nat.digitChar d) = d := by
  interval_cases d <;> rfl

theorem toDigitsCore_eq_digits :
    ∀ (f n : Nat) (ds : List Char), 0 < n → n < 10 ^ f →
      Nat.toDigitsCore 10 f n ds = ((Nat.digits 10 n).map Nat.digitChar).reverse ++ ds := by
  intro f
  induction f with
  | zero =>
    intro n ds hn hf
    simp at hf
    omega
  | succ f ih =>
    intro n ds hn hf
    have hd : Nat.digits 10 n = n % 10 :: Nat.digits 10 (n / 10) :=
      Nat.digits_def' (by norm_num) hn
    by_cases h0 : n / 10 = 0
    · have hnil : Nat.digits 10 (n / 10) = [] := by rw [h0]; simp
      simp [Nat.toDigitsCore, h0, hd, hnil]
    · have hlt : n / 10 < 10 ^ f := by
        rw [Nat.div_lt_iff_lt_mul (by norm_num : (0:Nat) < 10)]
        calc n < 10 ^ (f + 1) := hf
          _ = 10 ^ f * 10 := by rw [pow_succ]
      have hpos : 0 < n / 10 := Nat.pos_of_ne_zero h0
      simp only [Nat.toDigitsCore, h0, if_false]
      rw [ih (n / 10) (Nat.digitChar (n % 10) :: ds) hpos hlt, hd]
      simp

theorem repr_eq_digits (n : Nat) (hn : 0 < n) :
    Nat.repr n = (((Nat.digits 10 n).map Nat.digitChar).reverse).asString := by
  have hbound : n < 10 ^ (n + 1) := by
    have h1 : n < 10 ^ n := Nat.lt_pow_self (by norm_num) n
    have h2 : (10:Nat) ^ n ≤ 10 ^ (n + 1) := Nat.pow_le_pow_right (by norm_num) (Nat.le_succ n)
    omega
  show (Nat.toDigits 10 n).asString = _
  unfold Nat.toDigits
  rw [toDigitsCore_eq_digits (n + 1) n [] hn hbound]
  simp

theorem decodeRepr_repr (n : Nat) : decodeRepr (Nat.repr n) = n := by
  rcases Nat.eq_zero_or_pos n with h | h
  · subst h
    decide
  · rw [repr_eq_digits n h]
    unfold decodeRepr
    have hdata : ((((Nat.digits 10 n).map Nat.digitChar).reverse).asString).data =
        ((Nat.digits 10 n).map Nat.digitChar).reverse := rfl
    rw [hdata, List.reverse_reverse, List.map_map]
    have hmap : (Nat.digits 10 n).map (charVal ∘ Nat.digitChar) = Nat.digits 10 n := by
      have hall : ∀ d ∈ Nat.digits 10 n, (charVal ∘ Nat.digitChar) d = id d := by
        intro d hd
        exact charVal_digitChar d (Nat.digits_lt_base (by norm_num) hd)
      rw [List.map_congr_left hall, List.map_id]
    rw [hmap, Nat.ofDigits_digits]

theorem natRepr_injective : Function.Injective Nat.repr :=
  Function.LeftInverse.injective decodeRepr_repr

theorem toString_nat_injective : Function.Injective (fun n : Nat => toString n) :=
  natRepr_injective

/-! Characterization of the per-core CPU-seconds rebuild. -/

theorem update_cpu_usage_get (m : Metrics) (lbl : String) (c : CpuStats) (k : Labels) :
    (m.update_cpu_usage lbl c).cpu_seconds_total.get k =
      m.cpu_seconds_total.get k +
        ((if k = [lbl, "user"] then c.user else 0) +
         (if k = [lbl, "system"] then c.system else 0) +
         (if k = [lbl, "nice"] then c.nice else 0) +
         (if k = [lbl, "idle"] then c.idle else 0)) := by
  simp [Metrics.update_cpu_usage, Family.get_inc]
  ring

theorem cpuFold_get_enumFrom :
    ∀ (l : List CpuStats) (s : Nat) (m : Metrics) (k : Labels),
      ((l.enumFrom s).foldl cpuStep m).cpu_seconds_total.get k =
        m.cpu_seconds_total.get k + cpuContribFrom s l k := by
  intro l
  induction l with
  | nil =>
    intro s m k
    simp [cpuContribFrom]
  | cons c rest ih =>
    intro s m k
    rw [List.enumFrom_cons, List.foldl_cons]
    rw [ih (s + 1) (cpuStep m (s, c)) k]
    have hstep : cpuStep m (s, c) = m.update_cpu_usage (toString s) c := rfl
    rw [hstep, update_cpu_usage_get]
    simp only [cpuContribFrom, cellContrib]
    ring

theorem cellContrib_ne (j i : Nat) (c : CpuStats) (mode : String) (h : j ≠ i) :
    cellContrib j c [toString i, mode] = 0 := by
  have hne : toString i ≠ toString j := fun hh => h (toString_nat_injective hh).symm
  simp [cellContrib, hne]

theorem cpuContribFrom_out :
    ∀ (l : List CpuStats) (s i : Nat) (mode : String), i < s →
      cpuContribFrom s l [toString i, mode] = 0 := by
  intro l
  induction l with
  | nil => intro s i mode h; rfl
  | cons c rest ih =>
    intro s i mode h
    simp only [cpuContribFrom]
    rw [cellContrib_ne s i c mode (by omega), ih (s + 1) i mode (by omega)]
    simp

theorem cpuContribFrom_at :
    ∀ (l : List CpuStats) (s i : Nat) (h : i < l.length),
      cpuContribFrom s l [toString (s + i), "user"] = (l.get ⟨i, h⟩).user ∧
      cpuContribFrom s l [toString (s + i), "system"] = (l.get ⟨i, h⟩).system ∧
      cpuContribFrom s l [toString (s + i), "nice"] = (l.get ⟨i, h⟩).nice ∧
      cpuContribFrom s l [toString (s + i), "idle"] = (l.get ⟨i, h⟩).idle := by
  intro l
  induction l with
  | nil => intro s i h; simp at h
  | cons c rest ih =>
    intro s i h
    cases i with
    | zero =>
      have hget : (c :: rest).get ⟨0, h⟩ = c := rfl
      refine ⟨?_, ?_, ?_, ?_⟩ <;>
        · simp only [cpuContribFrom, Nat.add_zero, hget]
          rw [cpuContribFrom_out rest (s + 1) s _ (by omega)]
          simp [cellContrib]
    | succ i' =>
      have h' : i' < rest.length := by
        have := Nat.lt_of_succ_lt_succ h
        simpa using this
      have harith : s + (i' + 1) = s + 1 + i' := by omega
      obtain ⟨hu, hs2, hn, hi⟩ := ih (s + 1) i' h'
      have hget : (c :: rest).get ⟨i' + 1, h⟩ = rest.get ⟨i', h'⟩ := rfl
      refine ⟨?_, ?_, ?_, ?_⟩
      · simp only [cpuContribFrom, harith, hget]
        rw [cellContrib_ne s (s + 1 + i') c "user" (by omega), hu]
        simp
      · simp only [cpuContribFrom, harith, hget]
        rw [cellContrib_ne s (s + 1 + i') c "system" (by omega), hs2]
        simp
      · simp only [cpuContribFrom, harith, hget]
        rw [cellContrib_ne s (s + 1 + i') c "nice" (by omega), hn]
        simp
      · simp only [cpuContribFrom, harith, hget]
        rw [cellContrib_ne s (s + 1 + i') c "idle" (by omega), hi]
        simp

theorem cellContrib_mono (j : Nat) (c1 c2 : CpuStats) (k : Labels)
    (hu : c1.user ≤ c2.user) (hs : c1.system ≤ c2.system)
    (hn : c1.nice ≤ c2.nice) (hi : c1.idle ≤ c2.idle) :
    cellContrib j c1 k ≤ cellContrib j c2 k := by
  unfold cellContrib
  gcongr <;> split <;> simp [hu, hs, hn, hi, le_refl]

theorem cpuContribFrom_mono :
    ∀ (l1 l2 : List CpuStats) (s : Nat) (k : Labels),
      l1.length = l2.length →
      (∀ (i : Nat) (h1 : i < l1.length) (h2 : i < l2.length),
        (l1.get ⟨i, h1⟩).user ≤ (l2.get ⟨i, h2⟩).user ∧
        (l1.get ⟨i, h1⟩).system ≤ (l2.get ⟨i, h2⟩).system ∧
        (l1.get ⟨i, h1⟩).nice ≤ (l2.get ⟨i, h2⟩).nice ∧
        (l1.get ⟨i, h1⟩).idle ≤ (l2.get ⟨i, h2⟩).idle) →
      cpuContribFrom s l1 k ≤ cpuContribFrom s l2 k := by
  intro l1
  induction l1 with
  | nil =>
    intro l2 s k hlen _
    cases l2 with
    | nil => exact le_refl _
    | cons c2 r2 => simp at hlen
  | cons c1 r1 ih =>
    intro l2 s k hlen hmono
    cases l2 with
    | nil => simp at hlen
    | cons c2 r2 =>
      have hlen' : r1.length = r2.length := by simpa using hlen
      have hhead := hmono 0 (by simp) (by simp)
      have htail : ∀ (i : Nat) (h1 : i < r1.length) (h2 : i < r2.length),
          (r1.get ⟨i, h1⟩).user ≤ (r2.get ⟨i, h2⟩).user ∧
          (r1.get ⟨i, h1⟩).system ≤ (r2.get ⟨i, h2⟩).system ∧
          (r1.get ⟨i, h1⟩).nice ≤ (r2.get ⟨i, h2⟩).nice ∧
          (r1.get ⟨i, h1⟩).idle ≤ (r2.get ⟨i, h2⟩).idle := by
        intro i h1 h2
        exact hmono (i + 1) (by simpa using Nat.succ_lt_succ h1)
          (by simpa using Nat.succ_lt_succ h2)
      simp only [cpuContribFrom]
      have hc := cellContrib_mono s c1 c2 k hhead.1 hhead.2.1 hhead.2.2.1 hhead.2.2.2
      have hr := ih r2 (s + 1) k hlen' htail
      exact add_le_add hc hr

theorem usm_cpu_seconds_get (m : Metrics) (sys : SystemSnapshot) (k : Labels) :
    (m.update_system_metrics sys).cpu_seconds_total.get k = cpuContribFrom 0 sys.cpus k := by
  rw [update_system_metrics_eq, procFold_eq]
  show (sys.cpus.enum.foldl cpuStep
      { m with cpu_seconds_total := Family.reset }).cpu_seconds_total.get k = _
  rw [List.enum_eq_enumFrom, cpuFold_get_enumFrom]
  simp [Family.get_reset]

theorem runCycle_cpu_get (m : Metrics) (s : RawSample) (k : Labels) :
    (runCycle m s).cpu_seconds_total.get k = cpuContribFrom 0 s.system.cpus k := by
  unfold runCycle
  rw [netFold_eq]
  show (m.update_system_metrics s.system).cpu_seconds_total.get k = _
  exact usm_cpu_seconds_get m s.system k

/-! Network counter updates and counter monotonicity. -/

theorem update_network_metrics_get (m : Metrics) (iface : String) (net : NetworkData)
    (k : Labels) :
    ((m.update_network_metrics iface net).network_received_total.get k =
      m.network_received_total.get k + (if k = [iface] then ((net.received : Value)) else 0)) ∧
    ((m.update_network_metrics iface net).network_transmitted_total.get k =
      m.network_transmitted_total.get k +
        (if k = [iface] then ((net.transmitted : Value)) else 0)) ∧
    ((m.update_network_metrics iface net).network_packets_received_total.get k =
      m.network_packets_received_total.get k +
        (if k = [iface] then ((net.packets_received : Value)) else 0)) ∧
    ((m.update_network_metrics iface net).network_packets_transmitted_total.get k =
      m.network_packets_transmitted_total.get k +
        (if k = [iface] then ((net.packets_transmitted : Value)) else 0)) ∧
    ((m.update_network_metrics iface net).network_errors_on_received_total.get k =
      m.network_errors_on_received_total.get k +
        (if k = [iface] then ((net.errors_on_received : Value)) else 0)) ∧
    ((m.update_network_metrics iface net).network_errors_on_transmitted_total.get k =
      m.network_errors_on_transmitted_total.get k +
        (if k = [iface] then ((net.errors_on_transmitted : Value)) else 0)) := by
  refine ⟨?_, ?_, ?_, ?_, ?_, ?_⟩ <;>
    simp [Metrics.update_network_metrics, Family.get_inc]

theorem netStep_mono (m : Metrics) (nd : String × NetworkData) (k : Labels) :
    m.network_received_total.get k ≤ (netStep m nd).network_received_total.get k ∧
    m.network_transmitted_total.get k ≤ (netStep m nd).network_transmitted_total.get k ∧
    m.network_packets_received_total.get k ≤
      (netStep m nd).network_packets_received_total.get k ∧
    m.network_packets_transmitted_total.get k ≤
      (netStep m nd).network_packets_transmitted_total.get k ∧
    m.network_errors_on_received_total.get k ≤
      (netStep m nd).network_errors_on_received_total.get k ∧
    m.network_errors_on_transmitted_total.get k ≤
      (netStep m nd).network_errors_on_transmitted_total.get k := by
  obtain ⟨h1, h2, h3, h4, h5, h6⟩ := update_network_metrics_get m nd.1 nd.2 k
  unfold netStep
  rw [h1, h2, h3, h4, h5, h6]
  refine ⟨?_, ?_, ?_, ?_, ?_, ?_⟩ <;>
    · apply le_add_of_nonneg_right
      split <;> simp

theorem netFold_mono (l : List (String × NetworkData)) (m : Metrics) (k : Labels) :
    m.network_received_total.get k ≤ (l.foldl netStep m).network_received_total.get k ∧
    m.network_transmitted_total.get k ≤ (l.foldl netStep m).network_transmitted_total.get k ∧
    m.network_packets_received_total.get k ≤
      (l.foldl netStep m).network_packets_received_total.get k ∧
    m.network_packets_transmitted_total.get k ≤
      (l.foldl netStep m).network_packets_transmitted_total.get k ∧
    m.network_errors_on_received_total.get k ≤
      (l.foldl netStep m).network_errors_on_received_total.get k ∧
    m.network_errors_on_transmitted_total.get k ≤
      (l.foldl netStep m).network_errors_on_transmitted_total.get k := by
  induction l generalizing m with
  | nil => simp
  | cons nd tl ih =>
    simp only [List.foldl_cons]
    obtain ⟨s1, s2, s3, s4, s5, s6⟩ := netStep_mono m nd k
    obtain ⟨r1, r2, r3, r4, r5, r6⟩ := ih (netStep m nd)
    exact ⟨le_trans s1 r1, le_trans s2 r2, le_trans s3 r3, le_trans s4 r4,
      le_trans s5 r5, le_trans s6 r6⟩

theorem procStep_disk_mono (m : Metrics) (p : ProcStats) (k : Labels) :
    m.process_disk_read_total.get k ≤ (procStep m p).process_disk_read_total.get k ∧
    m.process_disk_write_total.get k ≤ (procStep m p).process_disk_write_total.get k := by
  cases hp : p.name with
  | none => simp [procStep, hp]
  | some n =>
    refine ⟨?_, ?_⟩ <;>
      · simp only [procStep, hp, Metrics.update_process_metrics]
        rw [Family.get_inc]
        apply le_add_of_nonneg_right
        split <;> simp

theorem procFold_disk_mono (l : List ProcStats) (m : Metrics) (k : Labels) :
    m.process_disk_read_total.get k ≤ (l.foldl procStep m).process_disk_read_total.get k ∧
    m.process_disk_write_total.get k ≤ (l.foldl procStep m).process_disk_write_total.get k := by
  induction l generalizing m with
  | nil => simp
  | cons p tl ih =>
    simp only [List.foldl_cons]
    have hstep := procStep_disk_mono m p k
    have hrec := ih (procStep m p)
    exact ⟨le_trans hstep.1 hrec.1, le_trans hstep.2 hrec.2⟩

theorem usm_net_eq (m : Metrics) (sys : SystemSnapshot) :
    (m.update_system_metrics sys).network_received_total = m.network_received_total ∧
    (m.update_system_metrics sys).network_transmitted_total = m.network_transmitted_total ∧
    (m.update_system_metrics sys).network_packets_received_total =
      m.network_packets_received_total ∧
    (m.update_system_metrics sys).network_packets_transmitted_total =
      m.network_packets_transmitted_total ∧
    (m.update_system_metrics sys).network_errors_on_received_total =
      m.network_errors_on_received_total ∧
    (m.update_system_metrics sys).network_errors_on_transmitted_total =
      m.network_errors_on_transmitted_total := by
  rw [update_system_metrics_eq, procFold_eq]
  exact ⟨rfl, rfl, rfl, rfl, rfl, rfl⟩

theorem usm_disk_mono (m : Metrics) (sys : SystemSnapshot) (k : Labels) :
    m.process_disk_read_total.get k ≤
      (m.update_system_metrics sys).process_disk_read_total.get k ∧
    m.process_disk_write_total.get k ≤
      (m.update_system_metrics sys).process_disk_write_total.get k := by
  rw [update_system_metrics_eq]
  refine ⟨?_, ?_⟩
  · exact (procFold_disk_mono sys.processes _ k).1
  · exact (procFold_disk_mono sys.processes _ k).2

theorem netFold_disk_eq (l : List (String × NetworkData)) (m : Metrics) :
    (l.foldl netStep m).process_disk_read_total = m.process_disk_read_total ∧
    (l.foldl netStep m).process_disk_write_total = m.process_disk_write_total := by
  rw [netFold_eq]
  exact ⟨rfl, rfl⟩

theorem runCycle_counter_mono (m : Metrics) (s : RawSample) (k : Labels) :
    m.network_received_total.get k ≤ (runCycle m s).network_received_total.get k ∧
    m.network_transmitted_total.get k ≤ (runCycle m s).network_transmitted_total.get k ∧
    m.network_packets_received_total.get k ≤
      (runCycle m s).network_packets_received_total.get k ∧
    m.network_packets_transmitted_total.get k ≤
      (runCycle m s).network_packets_transmitted_total.get k ∧
    m.network_errors_on_received_total.get k ≤
      (runCycle m s).network_errors_on_received_total.get k ∧
    m.network_errors_on_transmitted_total.get k ≤
      (runCycle m s).network_errors_on_transmitted_total.get k ∧
    m.process_disk_read_total.get k ≤ (runCycle m s).process_disk_read_total.get k ∧
    m.process_disk_write_total.get k ≤ (runCycle m s).process_disk_write_total.get k := by
  unfold runCycle
  obtain ⟨e1, e2, e3, e4, e5, e6⟩ := usm_net_eq m s.system
  obtain ⟨f1, f2, f3, f4, f5, f6⟩ :=
    netFold_mono s.networks (m.update_system_metrics s.system) k
  obtain ⟨d1, d2⟩ := usm_disk_mono m s.system k
  obtain ⟨g1, g2⟩ := netFold_disk_eq s.networks (m.update_system_metrics s.system)
  refine ⟨?_, ?_, ?_, ?_, ?_, ?_, ?_, ?_⟩
  · rw [← e1]; exact f1
  · rw [← e2]; exact f2
  · rw [← e3]; exact f3
  · rw [← e4]; exact f4
  · rw [← e5]; exact f5
  · rw [← e6]; exact f6
  · rw [g1]; exact d1
  · rw [g2]; exact d2

theorem applyCycles_counter_mono (samples : List RawSample) (m : Metrics) (k : Labels) :
    m.network_received_total.get k ≤
      (applyCycles samples m).network_received_total.get k ∧
    m.network_transmitted_total.get k ≤
      (applyCycles samples m).network_transmitted_total.get k ∧
    m.network_packets_received_total.get k ≤
      (applyCycles samples m).network_packets_received_total.get k ∧
    m.network_packets_transmitted_total.get k ≤
      (applyCycles samples m).network_packets_transmitted_total.get k ∧
    m.network_errors_on_received_total.get k ≤
      (applyCycles samples m).network_errors_on_received_total.get k ∧
    m.network_errors_on_transmitted_total.get k ≤
      (applyCycles samples m).network_errors_on_transmitted_total.get k ∧
    m.process_disk_read_total.get k ≤
      (applyCycles samples m).process_disk_read_total.get k ∧
    m.process_disk_write_total.get k ≤
      (applyCycles samples m).process_disk_write_total.get k := by
  induction samples generalizing m with
  | nil => simp [applyCycles]
  | cons s tl ih =>
    simp only [applyCycles, List.foldl_cons]
    obtain ⟨s1, s2, s3, s4, s5, s6, s7, s8⟩ := runCycle_counter_mono m s k
    obtain ⟨r1, r2, r3, r4, r5, r6, r7, r8⟩ := ih (runCycle m s)
    exact ⟨le_trans s1 r1, le_trans s2 r2, le_trans s3 r3, le_trans s4 r4,
      le_trans s5 r5, le_trans s6 r6, le_trans s7 r7, le_trans s8 r8⟩

theorem applyCycles_append (a b : List RawSample) (m : Metrics) :
    applyCycles (a ++ b) m = applyCycles b (applyCycles a m) := by
  simp [applyCycles, List.foldl_append]

theorem applyCycles_cpu_last (l : List RawSample) (s : RawSample) (m : Metrics) (k : Labels) :
    (applyCycles (l ++ [s]) m).cpu_seconds_total.get k = cpuContribFrom 0 s.system.cpus k := by
  rw [applyCycles_append]
  show (runCycle (applyCycles l m) s).cpu_seconds_total.get k = _
  exact runCycle_cpu_get (applyCycles l m) s k

/-! The collection loop runs whole cycles and stops at the first signalled
check. -/

theorem collectionLoop_range' :
    ∀ (d i fuel : Nat) (sig : Nat → Bool) (samples : Nat → RawSample) (m : Metrics),
      d < fuel → (∀ j, sig j = true ↔ i + d ≤ j) →
      collectionLoop fuel sig i samples m =
        some (applyCycles ((List.range' i d).map samples) m) := by
  intro d
  induction d with
  | zero =>
    intro i fuel sig samples m hfuel hsig
    cases fuel with
    | zero => omega
    | succ f =>
      have hstop : sig i = true := (hsig i).mpr (by omega)
      simp [collectionLoop, hstop, applyCycles]
  | succ d ih =>
    intro i fuel sig samples m hfuel hsig
    cases fuel with
    | zero => omega
    | succ f =>
      have hgo : sig i = false := by
        cases hcase : sig i with
        | false => rfl
        | true =>
          have := (hsig i).mp hcase
          omega
      have hsig' : ∀ j, sig j = true ↔ (i + 1) + d ≤ j := by
        intro j
        rw [hsig j]
        omega
      simp only [collectionLoop, hgo, Bool.false_eq_true, if_false]
      rw [ih (i + 1) f sig samples (runCycle m (samples i)) (by omega) hsig']
      rw [List.range'_succ]
      simp [applyCycles]

/-! The claims. -/

/-- Claim C1, counterexample to the start-time clause: in a cycle observing
two processes named `w` with start times 0 and 5 (in that table order), the
aggregated `process_start_time{name="w"}` is 5, although 0 is among the
reported start times — the gauge does not hold the minimum. -/
theorem claim_C1_counterexample :
    (Metrics.new.update_system_metrics cexSys).process_start_time.get ["w"] = 5 ∧
    ((0 : Value)) ∈ (cexSys.processes.filter (sameName "w")).map
      (fun p => ((p.startTime : Value))) ∧
    ¬ ((Metrics.new.update_system_metrics cexSys).process_start_time.get ["w"] ≤ 0) := by
  refine ⟨?_, ?_, ?_⟩ <;> decide

/-- Claim C1 (amended): for every cycle and process name with at least one
same-named process in the sample, after aggregation `process_cpu_usage` is the
sum of the CPU percentages, `process_memory` the sum of resident bytes,
`process_virtual_memory` the sum of virtual bytes, and `process_runtime` the
maximum reported run time — all unconditionally; `process_start_time` is the
minimum reported start time provided every same-named process reports a
nonzero start time (the code treats a stored 0 as unset). -/
theorem claim_C1_process_aggregation (m : Metrics) (sys : SystemSnapshot) (n : String)
    (hne : sys.processes.filter (sameName n) ≠ []) :
    (m.update_system_metrics sys).process_cpu_usage.get [n] =
      ((sys.processes.filter (sameName n)).map (fun p => p.cpuUsage)).sum ∧
    (m.update_system_metrics sys).process_memory.get [n] =
      ((sys.processes.filter (sameName n)).map (fun p => ((p.memory : Value)))).sum ∧
    (m.update_system_metrics sys).process_virtual_memory.get [n] =
      ((sys.processes.filter (sameName n)).map (fun p => ((p.virtualMemory : Value)))).sum ∧
    ((∀ p ∈ sys.processes, p.name = some n → 0 < p.startTime) →
      (m.update_system_metrics sys).process_start_time.get [n] ∈
        (sys.processes.filter (sameName n)).map (fun p => ((p.startTime : Value))) ∧
      ∀ t ∈ (sys.processes.filter (sameName n)).map (fun p => ((p.startTime : Value))),
        (m.update_system_metrics sys).process_start_time.get [n] ≤ t) ∧
    ((m.update_system_metrics sys).process_runtime.get [n] ∈
      (sys.processes.filter (sameName n)).map (fun p => ((p.runTime : Value))) ∧
      ∀ t ∈ (sys.processes.filter (sameName n)).map (fun p => ((p.runTime : Value))),
        t ≤ (m.update_system_metrics sys).process_runtime.get [n]) := by
  refine ⟨usm_cpu_get m sys n, usm_memory_get m sys n, usm_virtual_memory_get m sys n, ?_, ?_⟩
  · intro hpos
    rw [usm_start_get]
    apply stFold_zero_min
    · intro hnil
      exact hne (List.map_eq_nil_iff.mp hnil)
    · intro t ht
      obtain ⟨p, hp, rfl⟩ := List.mem_map.mp ht
      have hpmem : p ∈ sys.processes := (List.mem_filter.mp hp).1
      have hpname : p.name = some n := by
        have := (List.mem_filter.mp hp).2
        simpa [sameName] using this
      exact_mod_cast hpos p hpmem hpname
  · rw [usm_run_get]
    apply rtFold_zero_max
    · intro hnil
      exact hne (List.map_eq_nil_iff.mp hnil)
    · intro t ht
      obtain ⟨p, hp, rfl⟩ := List.mem_map.mp ht
      exact Nat.cast_nonneg _

/-- Claim C1 witness: the spec's `worker` scenario — CPU 10 + 15 = 25 and
memory 104857600 + 52428800 = 157286400 bytes — instantiated through the
amended theorem, whose hypotheses hold for this sample. -/
theorem claim_C1_witness :
    workerSys.processes.filter (sameName "worker") ≠ [] ∧
    (∀ p ∈ workerSys.processes, p.name = some "worker" → 0 < p.startTime) ∧
    (Metrics.new.update_system_metrics workerSys).process_cpu_usage.get ["worker"] = 25 ∧
    (Metrics.new.update_system_metrics workerSys).process_memory.get ["worker"] =
      157286400 := by
  have h := claim_C1_process_aggregation Metrics.new workerSys "worker" (by decide)
  refine ⟨by decide, by decide, ?_, ?_⟩
  · rw [h.1]
    norm_num [workerSys, worker1, worker2, sameName]
  · rw [h.2.1]
    norm_num [workerSys, worker1, worker2, sameName]

/-- Claim C2: after the reset-then-rebuild of a cycle, each of the five
process gauge families holds exactly the process names observed in that
cycle's sample — no stale names, no missing observed names. -/
theorem claim_C2_label_sets (m : Metrics) (sys : SystemSnapshot) (n : String) :
    ((m.update_system_metrics sys).process_cpu_usage.hasKey [n] = true ↔
        n ∈ observedNames sys) ∧
    ((m.update_system_metrics sys).process_memory.hasKey [n] = true ↔
        n ∈ observedNames sys) ∧
    ((m.update_system_metrics sys).process_virtual_memory.hasKey [n] = true ↔
        n ∈ observedNames sys) ∧
    ((m.update_system_metrics sys).process_start_time.hasKey [n] = true ↔
        n ∈ observedNames sys) ∧
    ((m.update_system_metrics sys).process_runtime.hasKey [n] = true ↔
        n ∈ observedNames sys) :=
  usm_hasKey m sys n

/-- Claim C3: each per-interface network counter is incremented by exactly the
delta the sampler reports since its last internal refresh; after a refresh the
sampler reports the difference of cumulative totals, so the `eth0` scenario
(cumulative 1000 then 1500) adds exactly 500 to the counter, whatever its
previous value — never setting it to the cumulative total. -/
theorem claim_C3_network_delta (m : Metrics) (iface : String) (net : NetworkData)
    (t : NetTotals) :
    ((m.update_network_metrics iface net).network_received_total.get [iface] =
      m.network_received_total.get [iface] + ((net.received : Value))) ∧
    ((m.update_network_metrics iface net).network_transmitted_total.get [iface] =
      m.network_transmitted_total.get [iface] + ((net.transmitted : Value))) ∧
    ((m.update_network_metrics iface net).network_packets_received_total.get [iface] =
      m.network_packets_received_total.get [iface] + ((net.packets_received : Value))) ∧
    ((m.update_network_metrics iface net).network_packets_transmitted_total.get [iface] =
      m.network_packets_transmitted_total.get [iface] +
        ((net.packets_transmitted : Value))) ∧
    ((m.update_network_metrics iface net).network_errors_on_received_total.get [iface] =
      m.network_errors_on_received_total.get [iface] + ((net.errors_on_received : Value))) ∧
    ((m.update_network_metrics iface net).network_errors_on_transmitted_total.get [iface] =
      m.network_errors_on_transmitted_total.get [iface] +
        ((net.errors_on_transmitted : Value))) ∧
    (net.refresh t).received = t.received - net.receivedTotal ∧
    (eth0First.refresh eth0SecondTotals).received = 500 ∧
    (∀ mm : Metrics,
      (mm.update_network_metrics "eth0"
          (eth0First.refresh eth0SecondTotals)).network_received_total.get ["eth0"] =
        mm.network_received_total.get ["eth0"] + 500) := by
  obtain ⟨h1, h2, h3, h4, h5, h6⟩ := update_network_metrics_get m iface net [iface]
  refine ⟨?_, ?_, ?_, ?_, ?_, ?_, rfl, by decide, ?_⟩
  · rw [h1]; simp
  · rw [h2]; simp
  · rw [h3]; simp
  · rw [h4]; simp
  · rw [h5]; simp
  · rw [h6]; simp
  · intro mm
    obtain ⟨g1, _, _, _, _, _⟩ :=
      update_network_metrics_get mm "eth0" (eth0First.refresh eth0SecondTotals) ["eth0"]
    rw [g1]
    norm_num
    decide

/-- Claim C4, code divergence: the scrape handler `try_get_metrics` locks both
OS-state handles and invokes the sampler's refresh on every request, contrary
to the claim that the request path only reads the current snapshot. -/
theorem claim_C4_scrape_locks_and_samples :
    Effect.lockSystem ∈ try_get_metrics_trace ∧
    Effect.lockNetworks ∈ try_get_metrics_trace ∧
    Effect.refreshSystem ∈ try_get_metrics_trace ∧
    Effect.refreshNetworks ∈ try_get_metrics_trace := by
  refine ⟨?_, ?_, ?_, ?_⟩ <;> decide

/-- Claim C5, code divergence: `main` constructs the state and serves requests
without ever starting the background collection task, and exits without
signalling or awaiting it. -/
theorem claim_C5_main_never_starts_scheduler :
    Effect.startScheduler ∉ main_trace ∧ Effect.stopScheduler ∉ main_trace := by
  refine ⟨?_, ?_⟩ <;> decide

/-- Claim C6: for any two completed cycles `i ≤ j` of one run, every network
counter instance and every per-process disk counter instance is non-decreasing
unconditionally, and the reset-and-rebuilt CPU-seconds family is
non-decreasing provided the OS-reported cumulative per-core times do not reset
between the two cycles' samples (same core count, per-core per-mode
non-decreasing). -/
theorem claim_C6_counters_monotone (m0 : Metrics) (samples : List RawSample) (i j : Nat)
    (hi : i < samples.length) (hj : j < samples.length) (hij : i ≤ j)
    (hlen : (samples.get ⟨i, hi⟩).system.cpus.length =
      (samples.get ⟨j, hj⟩).system.cpus.length)
    (hcpu : ∀ (c : Nat) (h1 : c < (samples.get ⟨i, hi⟩).system.cpus.length)
        (h2 : c < (samples.get ⟨j, hj⟩).system.cpus.length),
        ((samples.get ⟨i, hi⟩).system.cpus.get ⟨c, h1⟩).user ≤
          ((samples.get ⟨j, hj⟩).system.cpus.get ⟨c, h2⟩).user ∧
        ((samples.get ⟨i, hi⟩).system.cpus.get ⟨c, h1⟩).system ≤
          ((samples.get ⟨j, hj⟩).system.cpus.get ⟨c, h2⟩).system ∧
        ((samples.get ⟨i, hi⟩).system.cpus.get ⟨c, h1⟩).nice ≤
          ((samples.get ⟨j, hj⟩).system.cpus.get ⟨c, h2⟩).nice ∧
        ((samples.get ⟨i, hi⟩).system.cpus.get ⟨c, h1⟩).idle ≤
          ((samples.get ⟨j, hj⟩).system.cpus.get ⟨c, h2⟩).idle)
    (k : Labels) :
    (applyCycles (samples.take (i+1)) m0).network_received_total.get k ≤
      (applyCycles (samples.take (j+1)) m0).network_received_total.get k ∧
    (applyCycles (samples.take (i+1)) m0).network_transmitted_total.get k ≤
      (applyCycles (samples.take (j+1)) m0).network_transmitted_total.get k ∧
    (applyCycles (samples.take (i+1)) m0).network_packets_received_total.get k ≤
      (applyCycles (samples.take (j+1)) m0).network_packets_received_total.get k ∧
    (applyCycles (samples.take (i+1)) m0).network_packets_transmitted_total.get k ≤
      (applyCycles (samples.take (j+1)) m0).network_packets_transmitted_total.get k ∧
    (applyCycles (samples.take (i+1)) m0).network_errors_on_received_total.get k ≤
      (applyCycles (samples.take (j+1)) m0).network_errors_on_received_total.get k ∧
    (applyCycles (samples.take (i+1)) m0).network_errors_on_transmitted_total.get k ≤
      (applyCycles (samples.take (j+1)) m0).network_errors_on_transmitted_total.get k ∧
    (applyCycles (samples.take (i+1)) m0).process_disk_read_total.get k ≤
      (applyCycles (samples.take (j+1)) m0).process_disk_read_total.get k ∧
    (applyCycles (samples.take (i+1)) m0).process_disk_write_total.get k ≤
      (applyCycles (samples.take (j+1)) m0).process_disk_write_total.get k ∧
    (applyCycles (samples.take (i+1)) m0).cpu_seconds_total.get k ≤
      (applyCycles (samples.take (j+1)) m0).cpu_seconds_total.get k := by
  have hsub : List.take (i+1) (List.take (j+1) samples) = List.take (i+1) samples := by
    rw [List.take_take, min_eq_left (by omega)]
  have hsplit : List.take (j+1) samples =
      List.take (i+1) samples ++ List.drop (i+1) (List.take (j+1) samples) := by
    calc List.take (j+1) samples
        = List.take (i+1) (List.take (j+1) samples) ++
            List.drop (i+1) (List.take (j+1) samples) :=
          (List.take_append_drop _ _).symm
      _ = List.take (i+1) samples ++ List.drop (i+1) (List.take (j+1) samples) := by
          rw [hsub]
  have hBA : applyCycles (List.take (j+1) samples) m0 =
      applyCycles (List.drop (i+1) (List.take (j+1) samples))
        (applyCycles (List.take (i+1) samples) m0) := by
    conv_lhs => rw [hsplit]
    exact applyCycles_append _ _ _
  obtain ⟨c1, c2, c3, c4, c5, c6, c7, c8⟩ :=
    applyCycles_counter_mono (List.drop (i+1) (List.take (j+1) samples))
      (applyCycles (List.take (i+1) samples) m0) k
  rw [← hBA] at c1 c2 c3 c4 c5 c6 c7 c8
  have htake_i : List.take (i+1) samples =
      List.take i samples ++ [samples.get ⟨i, hi⟩] := by
    have hopt : samples[i]?.toList = [samples.get ⟨i, hi⟩] := by
      rw [List.getElem?_eq_getElem hi]
      simp [List.get_eq_getElem]
    rw [List.take_succ, hopt]
  have htake_j : List.take (j+1) samples =
      List.take j samples ++ [samples.get ⟨j, hj⟩] := by
    have hopt : samples[j]?.toList = [samples.get ⟨j, hj⟩] := by
      rw [List.getElem?_eq_getElem hj]
      simp [List.get_eq_getElem]
    rw [List.take_succ, hopt]
  have hA : (applyCycles (List.take (i+1) samples) m0).cpu_seconds_total.get k =
      cpuContribFrom 0 (samples.get ⟨i, hi⟩).system.cpus k := by
    rw [htake_i]
    exact applyCycles_cpu_last _ _ _ _
  have hB : (applyCycles (List.take (j+1) samples) m0).cpu_seconds_total.get k =
      cpuContribFrom 0 (samples.get ⟨j, hj⟩).system.cpus k := by
    rw [htake_j]
    exact applyCycles_cpu_last _ _ _ _
  refine ⟨c1, c2, c3, c4, c5, c6, c7, c8, ?_⟩
  rw [hA, hB]
  exact cpuContribFrom_mono _ _ 0 k hlen hcpu

/-- Claim C6 witness: two concrete cycles with growing OS counters; the
received-bytes counter for `eth0` and the core-0 user CPU-seconds counter are
non-decreasing from cycle 1 to cycle 2. -/
theorem claim_C6_witness :
    ((0:Nat) ≤ 1 ∧ (1:Nat) < [sampleA, sampleB].length) ∧
    (applyCycles ([sampleA, sampleB].take (0+1)) Metrics.new).network_received_total.get
        ["eth0"] ≤
      (applyCycles ([sampleA, sampleB].take (1+1)) Metrics.new).network_received_total.get
        ["eth0"] ∧
    (applyCycles ([sampleA, sampleB].take (0+1)) Metrics.new).cpu_seconds_total.get
        ["0", "user"] ≤
      (applyCycles ([sampleA, sampleB].take (1+1)) Metrics.new).cpu_seconds_total.get
        ["0", "user"] := by
  have h1 := claim_C6_counters_monotone Metrics.new [sampleA, sampleB] 0 1 (by decide)
    (by decide) (by decide) (by decide) (by decide) ["eth0"]
  have h2 := claim_C6_counters_monotone Metrics.new [sampleA, sampleB] 0 1 (by decide)
    (by decide) (by decide) (by decide) (by decide) ["0", "user"]
  exact ⟨⟨by decide, by decide⟩, h1.1, h2.2.2.2.2.2.2.2.2⟩

/-- Claim C7: the CPU-seconds counter family is reset and rebuilt each cycle
from the absolute OS-reported cumulative times, so after a completed cycle the
cell for core `i` and each mode equals exactly that cycle's sample value. -/
theorem claim_C7_cpu_seconds_rebuild (m : Metrics) (s : RawSample) (i : Nat)
    (hi : i < s.system.cpus.length) :
    (runCycle m s).cpu_seconds_total.get [toString i, "user"] =
      (s.system.cpus.get ⟨i, hi⟩).user ∧
    (runCycle m s).cpu_seconds_total.get [toString i, "system"] =
      (s.system.cpus.get ⟨i, hi⟩).system ∧
    (runCycle m s).cpu_seconds_total.get [toString i, "nice"] =
      (s.system.cpus.get ⟨i, hi⟩).nice ∧
    (runCycle m s).cpu_seconds_total.get [toString i, "idle"] =
      (s.system.cpus.get ⟨i, hi⟩).idle := by
  obtain ⟨hu, hs2, hn, hid⟩ := cpuContribFrom_at s.system.cpus 0 i hi
  simp only [Nat.zero_add] at hu hs2 hn hid
  exact ⟨(runCycle_cpu_get m s _).trans hu, (runCycle_cpu_get m s _).trans hs2,
    (runCycle_cpu_get m s _).trans hn, (runCycle_cpu_get m s _).trans hid⟩

/-- Claim C7 witness: after a cycle on the concrete second sample, the core-0
cells hold exactly the sample's cumulative times. -/
theorem claim_C7_witness :
    (0:Nat) < sampleB.system.cpus.length ∧
    (runCycle Metrics.new sampleB).cpu_seconds_total.get [toString 0, "user"] = 2 ∧
    (runCycle Metrics.new sampleB).cpu_seconds_total.get [toString 0, "idle"] = 5 := by
  have h := claim_C7_cpu_seconds_rebuild Metrics.new sampleB 0 (by decide)
  refine ⟨by decide, ?_, ?_⟩
  · rw [h.1]; decide
  · rw [h.2.2.2]; decide

/-- Claim C8: starting the background collection while a task is already
present fails with the already-running error and leaves the state (hence the
first loop) untouched; stopping when nothing is running is a no-op that
returns without error. -/
theorem claim_C8_scheduler_start_stop (s : SchedCtl) :
    (s.background_task = true →
      start_background_metrics_collection s = (s, some SchedError.alreadyRunning)) ∧
    (s.background_task = false → s.shutdown_tx = false →
      stop_background_metrics_collection s = s) := by
  constructor
  · intro h
    simp [start_background_metrics_collection, h]
  · intro h1 h2
    cases s
    simp_all [stop_background_metrics_collection]

/-- Claim C8 witness: the running state rejects a second start unchanged; the
never-started state is unchanged by stop. -/
theorem claim_C8_witness :
    (SchedCtl.mk true true).background_task = true ∧
    start_background_metrics_collection ⟨true, true⟩ =
      (⟨true, true⟩, some SchedError.alreadyRunning) ∧
    stop_background_metrics_collection ⟨false, false⟩ = ⟨false, false⟩ := by
  have h1 := claim_C8_scheduler_start_stop ⟨true, true⟩
  have h2 := claim_C8_scheduler_start_stop ⟨false, false⟩
  exact ⟨rfl, h1.1 rfl, h2.2 rfl rfl⟩

/-- Claim C9: the loop checks the shutdown signal only at the top of each
iteration; if the signal is sent during the sleep before check `k`, the loop
terminates having applied exactly `k` whole cycles — it never samples again
and leaves no partial store mutation. -/
theorem claim_C9_shutdown_between_cycles (k fuel : Nat) (sig : Nat → Bool)
    (samples : Nat → RawSample) (m0 : Metrics)
    (hsig : ∀ j, sig j = true ↔ k ≤ j) (hfuel : k < fuel) :
    collectionLoop fuel sig 0 samples m0 =
      some (applyCycles ((List.range k).map samples) m0) := by
  rw [List.range_eq_range']
  refine collectionLoop_range' k 0 fuel sig samples m0 hfuel ?_
  intro j
  rw [hsig j]
  omega

/-- Claim C9 witness: with the signal arriving before check 1 and fuel 3, the
loop stops after exactly one whole cycle. -/
theorem claim_C9_witness :
    (∀ j : Nat, (fun j => decide (1 ≤ j)) j = true ↔ 1 ≤ j) ∧ (1:Nat) < 3 ∧
    collectionLoop 3 (fun j => decide (1 ≤ j)) 0 (fun _ => sampleA) Metrics.new =
      some (applyCycles ((List.range 1).map (fun _ => sampleA)) Metrics.new) := by
  refine ⟨?_, by omega, ?_⟩
  · intro j
    simp
  · refine claim_C9_shutdown_between_cycles 1 3 _ _ _ ?_ (by omega)
    intro j
    simp

/-- Claim C10: the per-process aggregation treats a stored start-time of
exactly 0 as "no previous observation": the incoming start time replaces it
outright, while a nonzero stored value is combined with `min`; consequently a
same-named process reporting start time 0 does not pin the aggregate to 0 —
the next process's start time replaces it. -/
theorem claim_C10_zero_start_sentinel (m : Metrics) (n : String) (p q : ProcStats) :
    (m.process_start_time.get [n] = 0 →
      (m.update_process_metrics n p).process_start_time.get [n] =
        ((p.startTime : Value))) ∧
    (m.process_start_time.get [n] ≠ 0 →
      (m.update_process_metrics n p).process_start_time.get [n] =
        min (m.process_start_time.get [n]) ((p.startTime : Value))) ∧
    (m.process_start_time.get [n] = 0 → p.startTime = 0 →
      ((m.update_process_metrics n p).update_process_metrics n
          q).process_start_time.get [n] = ((q.startTime : Value))) := by
  refine ⟨?_, ?_, ?_⟩
  · intro h
    simp [Metrics.update_process_metrics, Family.get_set, h]
  · intro h
    simp [Metrics.update_process_metrics, Family.get_set, h]
  · intro h1 h2
    simp [Metrics.update_process_metrics, Family.get_set, h1, h2]

/-- Claim C10 witness: from an empty store, a `w` process with start time 0
followed by one with start time 5 leaves the aggregate at 5, not pinned to
the minimum 0. -/
theorem claim_C10_witness :
    Metrics.new.process_start_time.get ["w"] = 0 ∧ procW0.startTime = 0 ∧
    ((Metrics.new.update_process_metrics "w" procW0).update_process_metrics "w"
        procW5).process_start_time.get ["w"] = 5 ∧
    ¬ (((Metrics.new.update_process_metrics "w" procW0).update_process_metrics "w"
        procW5).process_start_time.get ["w"] ≤ 0) := by
  have h := (claim_C10_zero_start_sentinel Metrics.new "w" procW0 procW5).2.2 rfl rfl
  refine ⟨rfl, rfl, ?_, ?_⟩
  · rw [h]; decide
  · rw [h]; decide

end Simon
